import Mathlib

/-
Verification of the service-module dispatch-and-reconciliation engine.

The repository file src/lib/ansible/modules/service.py is a documentation
proxy: it holds only the DOCUMENTATION and EXAMPLES metadata strings and no
executable reconciliation logic.  The engine itself (backend registry,
status resolver, reconciliation, execution) lives outside the provided
sources, so it is modelled here from the specification, faithful to its
words, and the claims are settled against that model.
-/

namespace Service

/-- Modelled from the spec: desired service state; the choices come from the
DOCUMENTATION options block (choices: reloaded, restarted, started, stopped). -/
inductive DesiredState where
  | started
  | stopped
  | restarted
  | reloaded
  deriving DecidableEq, Repr

/-- Modelled from the spec: tri-state boolean used for resolved running and
enabled states (true / false / unknown). -/
inductive Tri where
  | yes
  | no
  | unknown
  deriving DecidableEq, Repr

/-- Modelled from the spec: inject a definite boolean into the tri-state. -/
def Tri.ofBool : Bool → Tri
  | true => .yes
  | false => .no

/-- Modelled from the spec: provenance of a resolved status
(backend-reported, pattern-matched, or unknown). -/
inductive Source where
  | backendReported
  | patternMatched
  | unknownSrc
  deriving DecidableEq, Repr

/-- Modelled from the spec: ServiceSpec, the immutable input.  Optional
fields are absent when not supplied; `runlevel` defaults to "default" and
`arguments` to "" at the point of use; `use` defaults to "auto". -/
structure ServiceSpec where
  name : String
  state : Option DesiredState
  enabled : Option Bool
  sleep : Option Nat
  pattern : Option String
  runlevel : Option String
  arguments : Option String
  use : String
  deriving DecidableEq, Repr

/-- Modelled from the spec: a backend's capability set (supports-sleep,
supports-pattern, supports-runlevel, supports-status-query, plus native
restart, enable/disable toggling and argument passthrough, which the
capability-gating and planning rules branch on). -/
structure Capabilities where
  supportsSleep : Bool
  supportsPattern : Bool
  supportsRunlevel : Bool
  supportsStatusQuery : Bool
  supportsNativeRestart : Bool
  supportsEnable : Bool
  supportsArgs : Bool
  deriving DecidableEq, Repr

/-- Modelled from the spec: BackendDescriptor identifying a backend by id and
its capability set. -/
structure BackendDescriptor where
  id : String
  caps : Capabilities
  deriving DecidableEq, Repr

/-- Modelled from the spec: ServiceStatus, the resolved current state
(running tri-state, enabled tri-state, source of the information). -/
structure ServiceStatus where
  running : Tri
  enabled : Tri
  source : Source
  deriving DecidableEq, Repr

/-- Modelled from the spec: the primitive actions an action plan is made of
(start/stop/restart/reload/enable/disable). -/
inductive Action where
  | start
  | stop
  | restart
  | reload
  | enable
  | disable
  deriving DecidableEq, Repr

/-- Modelled from the spec: warnings for capability-dropped options and for
EnableUnsupported downgraded to a warning. -/
inductive Warning where
  | sleepIgnored
  | patternIgnored
  | runlevelIgnored
  | argumentsIgnored
  | enableUnsupported
  deriving DecidableEq, Repr

/-- Modelled from the spec: error kinds of the error-handling design
(InvalidSpec, UnknownBackend, ActionFailed with the failing action and
message; StatusUnsupported is handled internally and EnableUnsupported is
downgraded to a warning, so neither is a caller-visible error kind here). -/
inductive Err where
  | invalidSpec
  | unknownBackend
  | actionFailed (action : Action) (message : String)
  deriving DecidableEq, Repr

/-- Modelled from the spec: observable side-effecting interactions with the
host — a backend-native status query, a process-list scan for pattern
matching, and the subprocess invocation executing one primitive action. -/
inductive Effect where
  | statusQuery
  | procScan
  | exec (a : Action)
  deriving DecidableEq, Repr

/-- Modelled from the spec: outcome of the backend-native status query —
a definite report, StatusUnsupported, or a soft error (non-zero exit not
indicating a hard fault). -/
inductive NativeResult where
  | reported (running : Bool)
  | statusUnsupported
  | softError
  deriving DecidableEq, Repr

/-- Modelled from the spec: the external world an invocation runs against —
the detected init manager from fact gathering, the backend registry
(populated at startup, immutable afterwards), the backend-native status
query result, the backend-reported enabled state, the live process list,
and the exit behaviour of each primitive action (`none` = success,
`some msg` = failure with that message). -/
structure World where
  detectedManager : Option String
  registry : List (String × BackendDescriptor)
  native : NativeResult
  nativeEnabled : Tri
  procs : List String
  exec : Action → Option String

/-- Modelled from the spec: registry lookup of a backend id. -/
def lookupBackend (id : String) (reg : List (String × BackendDescriptor)) :
    Option BackendDescriptor :=
  (reg.find? (fun p => p.1 == id)).map (fun p => p.2)

/-- Modelled from the spec: capability set of the generic/legacy fallback
backend (the old service module): no reliable native status query, pattern
and sleep honoured, no native restart (restart is stop-then-start). -/
def legacyCaps : Capabilities :=
  { supportsSleep := true
    supportsPattern := true
    supportsRunlevel := false
    supportsStatusQuery := false
    supportsNativeRestart := false
    supportsEnable := true
    supportsArgs := true }

/-- Modelled from the spec: the generic/legacy fallback backend used when
auto-detection fails or detects an unregistered manager. -/
def legacyBackend : BackendDescriptor :=
  { id := "service", caps := legacyCaps }

/-- Modelled from the spec: Backend Registry contract
`resolve(selector, detected_manager) -> BackendDescriptor`.  "auto" uses the
externally supplied detected manager and falls back to the generic/legacy
backend when detection failed or found no matching registered backend; an
explicit selector is used verbatim and fails with UnknownBackend when
unregistered. -/
def resolve (selector : String) (detected : Option String)
    (reg : List (String × BackendDescriptor)) : Except Err BackendDescriptor :=
  if selector = "auto" then
    match detected with
    | some m =>
      match lookupBackend m reg with
      | some b => .ok b
      | none => .ok legacyBackend
    | none => .ok legacyBackend
  else
    match lookupBackend selector reg with
    | some b => .ok b
    | none => .error .unknownBackend

/-- Modelled from the spec: substring test used by pattern matching against
one process-list line. -/
def strHasSubstr (hay needle : String) : Bool :=
  hay.data.tails.any (fun t => needle.data.isPrefixOf t)

/-- Modelled from the spec: scan the live process list for a substring match
of the pattern. -/
def scanProcs (pattern : String) (procs : List String) : Bool :=
  procs.any (fun line => strHasSubstr line pattern)

/-- Modelled from the spec: Status Resolver
`resolve_status(backend, name, pattern?) -> ServiceStatus`.  First the
backend-native status query is attempted; when it reports StatusUnsupported
or fails with a soft error and a pattern was supplied, the process list is
scanned (running=true, source=pattern-matched on a match, running=false
otherwise); with no pattern and no native status, running is unknown.  The
enabled state always comes from the backend.  The second component records
whether a process-list scan was performed. -/
def resolve_status (native : NativeResult) (enb : Tri) (pattern : Option String)
    (procs : List String) : ServiceStatus × Bool :=
  match native with
  | .reported r => ({ running := Tri.ofBool r, enabled := enb, source := .backendReported }, false)
  | _ =>
    match pattern with
    | some p =>
      if scanProcs p procs then
        ({ running := .yes, enabled := enb, source := .patternMatched }, true)
      else
        ({ running := .no, enabled := enb, source := .patternMatched }, true)
    | none => ({ running := .unknown, enabled := enb, source := .unknownSrc }, false)

/-- Modelled from the spec: capability gating as a pure function from spec
and capability set to the effective spec — `sleep` dropped when the backend
does not honour inter-stop/start delays, `pattern` dropped when the backend
has a reliable native status query, `runlevel` dropped outside
OpenRC-class backends, `arguments` dropped when the backend does not
support passthrough args. -/
def effSpec (spec : ServiceSpec) (caps : Capabilities) : ServiceSpec :=
  { spec with
    sleep := if caps.supportsSleep then spec.sleep else none
    pattern := if caps.supportsStatusQuery then none else spec.pattern
    runlevel := if caps.supportsRunlevel then spec.runlevel else none
    arguments := if caps.supportsArgs then spec.arguments else none }

/-- Modelled from the spec: the warnings emitted by capability gating, one
per supplied-but-dropped option. -/
def gateWarnings (spec : ServiceSpec) (caps : Capabilities) : List Warning :=
  (if spec.sleep.isSome ∧ ¬caps.supportsSleep then [Warning.sleepIgnored] else []) ++
  (if spec.pattern.isSome ∧ caps.supportsStatusQuery then [Warning.patternIgnored] else []) ++
  (if spec.runlevel.isSome ∧ ¬caps.supportsRunlevel then [Warning.runlevelIgnored] else []) ++
  (if spec.arguments.isSome ∧ ¬caps.supportsArgs then [Warning.argumentsIgnored] else [])

/-- Modelled from the spec: the decision table of the Reconciliation Engine
(desired state × current running → primitive state actions); restart is
native when the backend exposes one and stop-then-start otherwise. -/
def stateActions (d : DesiredState) (running : Tri) (caps : Capabilities) :
    List Action :=
  match d with
  | .started => if running = .yes then [] else [.start]
  | .stopped => if running = .no then [] else [.stop]
  | .restarted => if caps.supportsNativeRestart then [.restart] else [.stop, .start]
  | .reloaded => if running = .yes then [.reload] else [.start]

/-- Modelled from the spec: orthogonal enabled handling — when `enabled` is
set and differs from (or is unknowable versus) the current enabled state,
an enable/disable primitive action is appended. -/
def enabledActions (e : Option Bool) (cur : Tri) : List Action :=
  match e with
  | none => []
  | some true => if cur = .yes then [] else [.enable]
  | some false => if cur = .no then [] else [.disable]

/-- Modelled from the spec: Reconciliation Engine contract
`reconcile(spec, status, backend) -> (ActionPlan, warnings)` — the state
actions from the decision table, with the enable/disable action appended
when enabled handling requires one; a backend lacking enable/disable
capability yields an EnableUnsupported warning instead, and the state
action continues. -/
def stateActionsOf (spec : ServiceSpec) (status : ServiceStatus)
    (b : BackendDescriptor) : List Action :=
  match spec.state with
  | none => []
  | some d => stateActions d status.running b.caps

/-- Modelled from the spec: Reconciliation Engine contract, continued —
the pair of plan and engine warnings. -/
def reconcile (spec : ServiceSpec) (status : ServiceStatus)
    (b : BackendDescriptor) : List Action × List Warning :=
  if spec.enabled.isSome ∧ ¬b.caps.supportsEnable then
    (stateActionsOf spec status b, [Warning.enableUnsupported])
  else
    (stateActionsOf spec status b ++ enabledActions spec.enabled status.enabled, [])

/-- Modelled from the spec: plan execution — each primitive action is run in
order; the first failure aborts the remainder, returning the actions that
completed before it and the failing action with its message. -/
def execPlan (plan : List Action) (ex : Action → Option String) :
    List Action × Option (Action × String) :=
  match plan with
  | [] => ([], none)
  | a :: rest =>
    match ex a with
    | some msg => ([], some (a, msg))
    | none =>
      let r := execPlan rest ex
      (a :: r.1, r.2)

/-- Modelled from the spec: the structured outcome handed to the Result
Reporter — changed flag, ordered warnings, optional error, the observable
effect trace, and the computed action plan. -/
structure ModuleResult where
  changed : Bool
  warnings : List Warning
  error : Option Err
  effects : List Effect
  plan : List Action
  deriving DecidableEq, Repr

/-- Modelled from the spec: the post-resolution stage data — effective spec
after capability gating, resolved status, whether a process scan happened,
the computed plan and the accumulated warnings. -/
structure Staged where
  espec : ServiceSpec
  status : ServiceStatus
  scanned : Bool
  plan : List Action
  warnings : List Warning

/-- Modelled from the spec: capability gating, status resolution and plan
computation, run once a backend has been resolved. -/
def stage (spec : ServiceSpec) (w : World) (b : BackendDescriptor) : Staged :=
  let es := effSpec spec b.caps
  let sr := resolve_status w.native w.nativeEnabled es.pattern w.procs
  let pw := reconcile es sr.1 b
  { espec := es
    status := sr.1
    scanned := sr.2
    plan := pw.1
    warnings := gateWarnings spec b.caps ++ pw.2 }

/-- Modelled from the spec: the work after backend resolution — stage, then
execute the plan; changed reflects the actions that actually completed, a
failing action surfaces as ActionFailed, and the effect trace records the
status query, any process scan, and every subprocess invocation (completed
actions plus the failing one). -/
def afterBackend (spec : ServiceSpec) (w : World) (b : BackendDescriptor) :
    ModuleResult :=
  let s := stage spec w b
  let er := execPlan s.plan w.exec
  { changed := !er.1.isEmpty
    warnings := s.warnings
    error := er.2.map (fun p => Err.actionFailed p.1 p.2)
    effects := Effect.statusQuery ::
      ((if s.scanned then [Effect.procScan] else []) ++
        er.1.map Effect.exec ++
        (match er.2 with
         | some p => [Effect.exec p.1]
         | none => []))
    plan := s.plan }

/-- Modelled from the spec: the full invocation — the at-least-one-of
state/enabled constraint is enforced before any backend interaction
(InvalidSpec), then the backend is resolved (UnknownBackend is fatal with
no action taken), then status is resolved, the plan computed and
executed. -/
def runModule (spec : ServiceSpec) (w : World) : ModuleResult :=
  if spec.state = none ∧ spec.enabled = none then
    { changed := false, warnings := [], error := some .invalidSpec,
      effects := [], plan := [] }
  else
    match resolve spec.use w.detectedManager w.registry with
    | .error e =>
      { changed := false, warnings := [], error := some e,
        effects := [], plan := [] }
    | .ok b => afterBackend spec w b

/-- Modelled from the spec: look up a raw invocation parameter by key. -/
def getParam (k : String) (raw : List (String × String)) : Option String :=
  (raw.find? (fun p => p.1 == k)).map (fun p => p.2)

/-- Modelled from the spec: parse the `state` option into a desired state. -/
def parseState : Option String → Option DesiredState
  | some "started" => some .started
  | some "stopped" => some .stopped
  | some "restarted" => some .restarted
  | some "reloaded" => some .reloaded
  | _ => none

/-- Modelled from the spec: parse the boolean `enabled` option. -/
def parseBool : Option String → Option Bool
  | some "yes" => some true
  | some "true" => some true
  | some "no" => some false
  | some "false" => some false
  | _ => none

/-- Modelled from the spec: parse the non-negative integer `sleep` option. -/
def parseNat (o : Option String) : Option Nat :=
  o.bind (fun s => s.toNat?)

/-- Modelled from the spec: build the ServiceSpec from the raw invocation
parameters; the extra-arguments option is read from the key `arguments`,
with `args` accepted as an alias (DOCUMENTATION: aliases: [ args ]). -/
def buildSpec (raw : List (String × String)) : ServiceSpec :=
  { name := (getParam "name" raw).getD ""
    state := parseState (getParam "state" raw)
    enabled := parseBool (getParam "enabled" raw)
    sleep := parseNat (getParam "sleep" raw)
    pattern := getParam "pattern" raw
    runlevel := getParam "runlevel" raw
    arguments := match getParam "arguments" raw with
      | some v => some v
      | none => getParam "args" raw
    use := (getParam "use" raw).getD "auto" }

/-- Modelled from the spec: an execution environment where every primitive
action succeeds. -/
def okExec : Action → Option String := fun _ => none

/-- Modelled from the spec: capability set of a systemd-class backend —
reliable native status query, native restart, no sleep/pattern/runlevel and
no argument passthrough. -/
def sysdCaps : Capabilities :=
  { supportsSleep := false
    supportsPattern := false
    supportsRunlevel := false
    supportsStatusQuery := true
    supportsNativeRestart := true
    supportsEnable := true
    supportsArgs := false }

/-- Modelled from the spec: a systemd backend descriptor. -/
def sysdBackend : BackendDescriptor := { id := "systemd", caps := sysdCaps }

/-- Modelled from the spec: a small registry holding the systemd backend. -/
def demoRegistry : List (String × BackendDescriptor) := [("systemd", sysdBackend)]

/-- Concrete spec used to instantiate the theorems: start httpd, nothing
else supplied. -/
def baseSpec : ServiceSpec :=
  { name := "httpd", state := some .started, enabled := none, sleep := none,
    pattern := none, runlevel := none, arguments := none, use := "auto" }

/-- Concrete world used to instantiate the theorems: detection failed (so
the legacy backend is resolved), native status reports running, every
action succeeds. -/
def baseWorld : World :=
  { detectedManager := none, registry := [], native := .reported true,
    nativeEnabled := .unknown, procs := [], exec := okExec }

/-- Exit behaviour of the partial-failure scenario: start fails, everything
else succeeds. -/
def failStartExec : Action → Option String
  | .start => some "start failed"
  | _ => none

/-- Concrete spec requesting a restart of the network service. -/
def restartSpec : ServiceSpec := { baseSpec with name := "network", state := some .restarted }

/-- Concrete spec requesting started plus enablement. -/
def startedEnabledSpec : ServiceSpec := { baseSpec with enabled := some true }

/-- Concrete world whose native status query reports the service stopped. -/
def stoppedWorld : World := { baseWorld with native := .reported false }

/-- Concrete world where the start action fails and the rest succeed. -/
def failWorld : World := { baseWorld with exec := failStartExec }

/-- Concrete status: running but disabled, backend-reported. -/
def runningDisabledStatus : ServiceStatus :=
  { running := .yes, enabled := .no, source := .backendReported }

/-- Concrete spec supplying a pattern while forcing the systemd backend. -/
def patternSpec : ServiceSpec :=
  { baseSpec with pattern := some "bin/httpd", use := "systemd" }

/-- Concrete world with the systemd backend registered. -/
def sysdWorld : World :=
  { baseWorld with registry := demoRegistry, detectedManager := some "systemd" }

theorem effSpec_state (spec : ServiceSpec) (caps : Capabilities) :
    (effSpec spec caps).state = spec.state := rfl

theorem effSpec_enabled (spec : ServiceSpec) (caps : Capabilities) :
    (effSpec spec caps).enabled = spec.enabled := rfl

theorem runModule_ok_eq (spec : ServiceSpec) (w : World) (b : BackendDescriptor)
    (hval : ¬(spec.state = none ∧ spec.enabled = none))
    (hres : resolve spec.use w.detectedManager w.registry = .ok b) :
    runModule spec w = afterBackend spec w b := by
  unfold runModule
  rw [if_neg hval, hres]

theorem execPlan_all_ok (plan : List Action) (ex : Action → Option String)
    (h : ∀ a, ex a = none) : execPlan plan ex = (plan, none) := by
  induction plan with
  | nil => rfl
  | cons a rest ih => simp [execPlan, h a, ih]

theorem execPlan_failure_split (plan : List Action) (ex : Action → Option String) :
    ∀ completed a msg, execPlan plan ex = (completed, some (a, msg)) →
      ∃ rest, plan = completed ++ a :: rest ∧
        (∀ x ∈ completed, ex x = none) ∧ ex a = some msg := by
  induction plan with
  | nil =>
    intro completed a msg h
    simp [execPlan] at h
  | cons b rest ih =>
    intro completed a msg h
    rcases hx : ex b with _ | m
    · rw [show execPlan (b :: rest) ex =
          (b :: (execPlan rest ex).1, (execPlan rest ex).2) from by
        simp [execPlan, hx]] at h
      injection h with h1 h2
      obtain ⟨r2, hr1, hr2, hr3⟩ :=
        ih (execPlan rest ex).1 a msg (by rw [← h2])
      refine ⟨r2, ?_, ?_, hr3⟩
      · rw [← h1]
        simp only [List.cons_append]
        rw [← hr1]
      · intro x hxmem
        rw [← h1] at hxmem
        rcases List.mem_cons.mp hxmem with hxb | hxc
        · rw [hxb]
          exact hx
        · exact hr2 x hxc
    · rw [show execPlan (b :: rest) ex = ([], some (b, m)) from by
        simp [execPlan, hx]] at h
      injection h with h1 h2
      injection h2 with h3
      injection h3 with hba hmm
      refine ⟨rest, ?_, ?_, ?_⟩
      · rw [← h1, hba]
        rfl
      · intro x hxmem
        rw [← h1] at hxmem
        simp at hxmem
      · rw [← hba, ← hmm]
        exact hx


/-- C3: a spec lacking both a desired state and an enabled flag fails with
InvalidSpec before any backend interaction — no status query, no process
invocation, no action, changed=false. -/
theorem missing_state_and_enabled_invalid (spec : ServiceSpec) (w : World)
    (h1 : spec.state = none) (h2 : spec.enabled = none) :
    runModule spec w =
      { changed := false, warnings := [],
        error := some .invalidSpec, effects := [], plan := [] } := by
  unfold runModule
  rw [if_pos ⟨h1, h2⟩]

/-- C3 witness: the invalid spec rejected at a concrete input. -/
theorem missing_state_and_enabled_invalid_witness :
    runModule { baseSpec with state := none, enabled := none } baseWorld =
      { changed := false, warnings := [], error := some .invalidSpec,
          effects := [], plan := [] } :=
  missing_state_and_enabled_invalid { baseSpec with state := none, enabled := none }
    baseWorld rfl rfl

/-- C8: resolve is a pure lookup — "auto" with failed detection falls back
to the generic/legacy backend, "auto" with a detected registered manager
returns its backend, an explicit registered selector is returned verbatim,
an explicit unregistered selector fails with UnknownBackend, and at module
level an UnknownBackend resolution is fatal with no action taken. -/
theorem resolve_backend_contract :
    (∀ reg, resolve "auto" none reg = .ok legacyBackend) ∧
    (∀ m b reg, lookupBackend m reg = some b →
      resolve "auto" (some m) reg = .ok b) ∧
    (∀ sel d b reg, sel ≠ "auto" → lookupBackend sel reg = some b →
      resolve sel d reg = .ok b) ∧
    (∀ sel d reg, sel ≠ "auto" → lookupBackend sel reg = none →
      resolve sel d reg = .error .unknownBackend) ∧
    (∀ spec w, ¬(spec.state = none ∧ spec.enabled = none) →
      resolve spec.use w.detectedManager w.registry = .error .unknownBackend →
      runModule spec w =
        { changed := false, warnings := [],
          error := some .unknownBackend, effects := [], plan := [] }) := by
  refine ⟨?_, ?_, ?_, ?_, ?_⟩
  · intro reg
    unfold resolve
    rw [if_pos rfl]
  · intro m b reg hlk
    unfold resolve
    rw [if_pos rfl]
    simp [hlk]
  · intro sel d b reg hne hlk
    unfold resolve
    rw [if_neg hne, hlk]
  · intro sel d reg hne hlk
    unfold resolve
    rw [if_neg hne, hlk]
  · intro spec w hval hres
    unfold runModule
    rw [if_neg hval, hres]

/-- C8 witness: the four resolution behaviours at concrete inputs. -/
theorem resolve_backend_contract_witness :
    resolve "auto" none demoRegistry = .ok legacyBackend ∧
    resolve "auto" (some "systemd") demoRegistry = .ok sysdBackend ∧
    resolve "systemd" (some "sysvinit") demoRegistry = .ok sysdBackend ∧
    resolve "openrc" none demoRegistry = .error .unknownBackend :=
  ⟨resolve_backend_contract.1 demoRegistry,
   resolve_backend_contract.2.1 "systemd" sysdBackend demoRegistry (by decide),
   resolve_backend_contract.2.2.1 "systemd" (some "sysvinit") sysdBackend
     demoRegistry (by decide) (by decide),
   resolve_backend_contract.2.2.2.1 "openrc" none demoRegistry
     (by decide) (by decide)⟩

/-- C9 counterexample: state=restarted on a backend lacking native restart,
with an enabled change also required, reconciles to [stop, start, enable] —
three primitive actions, refuting the at-most-2 bound for the whole plan. -/
theorem plan_bound_counterexample :
    (reconcile { restartSpec with enabled := some true } runningDisabledStatus
      legacyBackend).1 = [.stop, .start, .enable] ∧
    2 < ((reconcile { restartSpec with enabled := some true } runningDisabledStatus
      legacyBackend).1).length := by
  decide

/-- C9 amended: the state-derived portion of every plan has at most 2
primitive actions and the appended enabled-derived portion at most 1, so
every reconciled plan has at most 3 primitive actions; the at-most-2 bound
holds for the state actions alone, not once an enable/disable action is
appended. -/
theorem plan_length_bound :
    (∀ d r caps, (stateActions d r caps).length ≤ 2) ∧
    (∀ e cur, (enabledActions e cur).length ≤ 1) ∧
    (∀ spec status b, ((reconcile spec status b).1).length ≤ 3) := by
  have hsa : ∀ d r caps, (stateActions d r caps).length ≤ 2 := by
    intro d r caps
    cases d <;> simp only [stateActions] <;> split <;> simp
  have hea : ∀ (e : Option Bool) (cur : Tri), (enabledActions e cur).length ≤ 1 := by
    intro e cur
    rcases e with _ | b
    · simp [enabledActions]
    · cases b <;> simp only [enabledActions] <;> split <;> simp
  have hsaOf : ∀ spec status b, (stateActionsOf spec status b).length ≤ 2 := by
    intro spec status b
    unfold stateActionsOf
    rcases spec.state with _ | d
    · simp
    · exact hsa d status.running b.caps
  refine ⟨hsa, hea, ?_⟩
  intro spec status b
  unfold reconcile
  split
  · exact le_trans (hsaOf spec status b) (by omega)
  · show (stateActionsOf spec status b ++ enabledActions spec.enabled status.enabled).length ≤ 3
    rw [List.length_append]
    have h1 := hsaOf spec status b
    have h2 := hea spec.enabled status.enabled
    omega

theorem stage_plan_eq (spec : ServiceSpec) (w : World) (b : BackendDescriptor) :
    (stage spec w b).plan =
      (reconcile (effSpec spec b.caps) (stage spec w b).status b).1 := rfl

theorem reconcile_fst (spec : ServiceSpec) (status : ServiceStatus)
    (b : BackendDescriptor) :
    (reconcile spec status b).1 =
      stateActionsOf spec status b ++
        (if spec.enabled.isSome ∧ ¬b.caps.supportsEnable then []
         else enabledActions spec.enabled status.enabled) := by
  unfold reconcile
  split
  · rename_i h
    simp [h]
  · rename_i h
    simp [h]

theorem afterBackend_plan (spec : ServiceSpec) (w : World) (b : BackendDescriptor) :
    (afterBackend spec w b).plan = (stage spec w b).plan := rfl

theorem afterBackend_changed (spec : ServiceSpec) (w : World) (b : BackendDescriptor) :
    (afterBackend spec w b).changed =
      !((execPlan (stage spec w b).plan w.exec).1.isEmpty) := rfl

theorem afterBackend_warnings (spec : ServiceSpec) (w : World) (b : BackendDescriptor) :
    (afterBackend spec w b).warnings = (stage spec w b).warnings := rfl

theorem afterBackend_error (spec : ServiceSpec) (w : World) (b : BackendDescriptor) :
    (afterBackend spec w b).error =
      (execPlan (stage spec w b).plan w.exec).2.map
        (fun p => Err.actionFailed p.1 p.2) := rfl

theorem afterBackend_effects (spec : ServiceSpec) (w : World) (b : BackendDescriptor) :
    (afterBackend spec w b).effects =
      Effect.statusQuery ::
        ((if (stage spec w b).scanned then [Effect.procScan] else []) ++
          (execPlan (stage spec w b).plan w.exec).1.map Effect.exec ++
          (match (execPlan (stage spec w b).plan w.exec).2 with
           | some p => [Effect.exec p.1]
           | none => [])) := rfl

theorem execPlan_invokes (plan : List Action) (ex : Action → Option String)
    (h : plan ≠ []) :
    ∃ a, Effect.exec a ∈ (execPlan plan ex).1.map Effect.exec ++
      (match (execPlan plan ex).2 with
       | some p => [Effect.exec p.1]
       | none => []) := by
  rcases plan with _ | ⟨a, rest⟩
  · exact absurd rfl h
  · refine ⟨a, ?_⟩
    rcases hx : ex a with _ | m
    · rw [show execPlan (a :: rest) ex =
          (a :: (execPlan rest ex).1, (execPlan rest ex).2) from by
        simp [execPlan, hx]]
      simp
    · rw [show execPlan (a :: rest) ex = ([], some (a, m)) from by
        simp [execPlan, hx]]
      simp

theorem reload_not_in_enabledActions (e : Option Bool) (cur : Tri) :
    Action.reload ∉ enabledActions e cur := by
  rcases e with _ | b2
  · simp [enabledActions]
  · cases b2 <;> simp only [enabledActions] <;> split <;> simp

/-- C1 counterexample: a spec with state=started whose resolved current
running state is true but which also requests enablement reconciles to the
plan [enable] with changed=true, refuting the claim that every such spec
yields an empty plan and changed=false. -/
theorem started_idempotent_counterexample :
    (runModule startedEnabledSpec baseWorld).plan = [Action.enable] ∧
    (runModule startedEnabledSpec baseWorld).changed = true := by
  decide

/-- C1 amended: for state=started with resolved running true, or
state=stopped with resolved running false, when the enabled flag requires no
change the reconciled plan is empty, changed=false and no action subprocess
is invoked; in general only the state-derived portion of the plan is
guaranteed empty, since an independently requested enablement change can
still append an enable/disable action. -/
theorem started_stopped_idempotent (spec : ServiceSpec) (w : World)
    (b : BackendDescriptor)
    (hres : resolve spec.use w.detectedManager w.registry = .ok b)
    (hmatch : (spec.state = some .started ∧ (stage spec w b).status.running = .yes) ∨
              (spec.state = some .stopped ∧ (stage spec w b).status.running = .no))
    (hen : enabledActions spec.enabled (stage spec w b).status.enabled = []) :
    (runModule spec w).plan = [] ∧ (runModule spec w).changed = false ∧
      ∀ a, Effect.exec a ∉ (runModule spec w).effects := by
  have hval : ¬(spec.state = none ∧ spec.enabled = none) := by
    rcases hmatch with ⟨h1, _⟩ | ⟨h1, _⟩ <;> rw [h1] <;> simp
  have hsa0 : stateActionsOf (effSpec spec b.caps) (stage spec w b).status b = [] := by
    unfold stateActionsOf
    rw [effSpec_state]
    rcases hmatch with ⟨h1, h2⟩ | ⟨h1, h2⟩ <;> rw [h1] <;> simp [stateActions, h2]
  have hplan : (stage spec w b).plan = [] := by
    rw [stage_plan_eq, reconcile_fst, hsa0, List.nil_append]
    split
    · rfl
    · rw [effSpec_enabled]
      exact hen
  refine ⟨?_, ?_, ?_⟩
  · rw [runModule_ok_eq spec w b hval hres, afterBackend_plan, hplan]
  · rw [runModule_ok_eq spec w b hval hres, afterBackend_changed, hplan]
    rfl
  · intro a
    rw [runModule_ok_eq spec w b hval hres, afterBackend_effects, hplan]
    show Effect.exec a ∉ _
    rw [show execPlan [] w.exec = ([], none) from rfl]
    split <;> simp

/-- C1 witness: started on an already-running service with no enablement
request — empty plan, changed=false, no action subprocess. -/
theorem started_stopped_idempotent_witness :
    (runModule baseSpec baseWorld).plan = [] ∧
    (runModule baseSpec baseWorld).changed = false ∧
    ∀ a, Effect.exec a ∉ (runModule baseSpec baseWorld).effects :=
  started_stopped_idempotent baseSpec baseWorld legacyBackend rfl
    (Or.inl ⟨rfl, by decide⟩) (by decide)

/-- C2: state=restarted always produces a non-empty plan and invokes at
least one primitive action regardless of the resolved current running
state; when the plan's actions succeed the module reports changed=true. -/
theorem restarted_always_bounces (spec : ServiceSpec) (w : World)
    (b : BackendDescriptor)
    (hstate : spec.state = some .restarted)
    (hres : resolve spec.use w.detectedManager w.registry = .ok b) :
    (runModule spec w).plan ≠ [] ∧
    (∃ a, Effect.exec a ∈ (runModule spec w).effects) ∧
    ((∀ a, w.exec a = none) → (runModule spec w).changed = true) := by
  have hval : ¬(spec.state = none ∧ spec.enabled = none) := by
    rw [hstate]
    simp
  have hsane : stateActions .restarted (stage spec w b).status.running b.caps ≠ [] := by
    cases hb : b.caps.supportsNativeRestart <;> simp [stateActions, hb]
  have hplanne : (stage spec w b).plan ≠ [] := by
    rw [stage_plan_eq, reconcile_fst]
    intro hcontra
    rcases List.append_eq_nil.mp hcontra with ⟨h1, _⟩
    rw [show stateActionsOf (effSpec spec b.caps) (stage spec w b).status b =
        stateActions .restarted (stage spec w b).status.running b.caps from by
      unfold stateActionsOf
      rw [effSpec_state, hstate]] at h1
    exact hsane h1
  refine ⟨?_, ?_, ?_⟩
  · rw [runModule_ok_eq spec w b hval hres, afterBackend_plan]
    exact hplanne
  · obtain ⟨a, ha⟩ := execPlan_invokes (stage spec w b).plan w.exec hplanne
    refine ⟨a, ?_⟩
    rw [runModule_ok_eq spec w b hval hres, afterBackend_effects]
    rcases List.mem_append.mp ha with h1 | h1
    · exact List.mem_cons_of_mem _
        (List.mem_append.mpr (Or.inl (List.mem_append.mpr (Or.inr h1))))
    · exact List.mem_cons_of_mem _ (List.mem_append.mpr (Or.inr h1))
  · intro hok
    rw [runModule_ok_eq spec w b hval hres, afterBackend_changed,
      execPlan_all_ok _ _ hok]
    rcases hp : (stage spec w b).plan with _ | ⟨a, rest⟩
    · exact absurd hp hplanne
    · rfl

/-- C2 witness: a restart on the legacy backend with all actions
succeeding. -/
theorem restarted_always_bounces_witness :
    (runModule restartSpec baseWorld).plan ≠ [] ∧
    (∃ a, Effect.exec a ∈ (runModule restartSpec baseWorld).effects) ∧
    ((∀ a, baseWorld.exec a = none) →
      (runModule restartSpec baseWorld).changed = true) :=
  restarted_always_bounces restartSpec baseWorld legacyBackend rfl rfl

/-- C5: reloaded with resolved running false or unknown plans start (not
reload), so the service ends up running even if it was not previously
started; only with running true does it plan reload. -/
theorem reloaded_starts_when_not_running (spec : ServiceSpec)
    (status : ServiceStatus) (b : BackendDescriptor) (caps : Capabilities)
    (hstate : spec.state = some .reloaded) (hrun : status.running ≠ .yes) :
    stateActions .reloaded status.running b.caps = [.start] ∧
    stateActions .reloaded .yes caps = [.reload] ∧
    Action.start ∈ (reconcile spec status b).1 ∧
    Action.reload ∉ (reconcile spec status b).1 := by
  have h1 : stateActions .reloaded status.running b.caps = [.start] := by
    simp only [stateActions]
    rw [if_neg hrun]
  have hsa : stateActionsOf spec status b = [.start] := by
    unfold stateActionsOf
    rw [hstate]
    exact h1
  refine ⟨h1, rfl, ?_, ?_⟩
  · rw [reconcile_fst, hsa]
    simp
  · rw [reconcile_fst, hsa]
    intro hmem
    rcases List.mem_append.mp hmem with h | h
    · simp at h
    · revert h
      split
      · simp
      · exact fun h => reload_not_in_enabledActions _ _ h

/-- C5 witness: reloaded on a stopped service plans start, on a running one
reload. -/
theorem reloaded_starts_when_not_running_witness :
    stateActions .reloaded .no legacyBackend.caps = [.start] ∧
    stateActions .reloaded .yes sysdCaps = [.reload] ∧
    Action.start ∈ (reconcile { baseSpec with state := some .reloaded }
      { running := .no, enabled := .unknown, source := .backendReported }
      legacyBackend).1 ∧
    Action.reload ∉ (reconcile { baseSpec with state := some .reloaded }
      { running := .no, enabled := .unknown, source := .backendReported }
      legacyBackend).1 :=
  reloaded_starts_when_not_running { baseSpec with state := some .reloaded }
    { running := .no, enabled := .unknown, source := .backendReported }
    legacyBackend sysdCaps rfl (by decide)

theorem resolve_status_none_no_scan (native : NativeResult) (enb : Tri)
    (procs : List String) :
    (resolve_status native enb none procs).2 = false := by
  cases native <;> rfl

/-- C6: the status resolver attempts the backend-native query first and
returns its report verbatim; on StatusUnsupported or a soft error with a
supplied pattern it scans the process list — running=true with
source=pattern-matched on a match, running=false otherwise; with no
pattern it returns running=unknown, which the engine treats by always
taking the requested action (the state actions for an unknown running
state are never empty). -/
theorem status_resolver_contract (native : NativeResult) (enb : Tri)
    (p : String) (procs : List String)
    (hns : native = .statusUnsupported ∨ native = .softError) :
    (∀ r pat prs, resolve_status (.reported r) enb pat prs =
      ({ running := Tri.ofBool r, enabled := enb, source := .backendReported }, false)) ∧
    (scanProcs p procs = true → resolve_status native enb (some p) procs =
      ({ running := .yes, enabled := enb, source := .patternMatched }, true)) ∧
    (scanProcs p procs = false → resolve_status native enb (some p) procs =
      ({ running := .no, enabled := enb, source := .patternMatched }, true)) ∧
    (resolve_status native enb none procs =
      ({ running := .unknown, enabled := enb, source := .unknownSrc }, false)) ∧
    (∀ d caps, stateActions d .unknown caps ≠ []) := by
  refine ⟨?_, ?_, ?_, ?_, ?_⟩
  · intro r pat prs
    rfl
  · intro hscan
    rcases hns with hn | hn <;> subst hn <;> simp [resolve_status, hscan]
  · intro hscan
    rcases hns with hn | hn <;> subst hn <;> simp [resolve_status, hscan]
  · rcases hns with hn | hn <;> subst hn <;> rfl
  · intro d caps
    cases d <;> cases hb : caps.supportsNativeRestart <;> simp [stateActions, hb]

/-- C6 witness: StatusUnsupported plus a matching pattern at a concrete
process list resolves to running=true via pattern matching. -/
theorem status_resolver_contract_witness :
    resolve_status .statusUnsupported .unknown (some "bin/foo")
      ["/usr/bin/foo --serve"] =
      ({ running := .yes, enabled := .unknown, source := .patternMatched }, true) :=
  (status_resolver_contract .statusUnsupported .unknown "bin/foo"
    ["/usr/bin/foo --serve"] (Or.inl rfl)).2.1 (by decide)

/-- C4: a failing primitive action aborts the remainder of the plan — the
completed actions are exactly the prefix before the failing action, all of
them succeeded, nothing after the failure ran — and the result carries
ActionFailed naming that action while changed reflects the completed
actions; concretely, a restart whose stop succeeds and whose start fails
reports changed=true with ActionFailed start after invoking exactly
[stop, start], and a subsequent reconcile with state=started on the
now-stopped service plans exactly [start]. -/
theorem action_failure_aborts (plan : List Action) (ex : Action → Option String)
    (completed : List Action) (a : Action) (msg : String)
    (h : execPlan plan ex = (completed, some (a, msg))) :
    (∃ rest, plan = completed ++ a :: rest ∧
      (∀ x ∈ completed, ex x = none) ∧ ex a = some msg) ∧
    runModule restartSpec failWorld =
      { changed := true, warnings := [],
        error := some (.actionFailed .start "start failed"),
        effects := [.statusQuery, .exec .stop, .exec .start],
        plan := [.stop, .start] } ∧
    (runModule { restartSpec with state := some .started } stoppedWorld).plan =
      [Action.start] ∧
    (runModule { restartSpec with state := some .started } stoppedWorld).changed =
      true := by
  refine ⟨execPlan_failure_split plan ex completed a msg h, ?_, ?_, ?_⟩
  · decide
  · decide
  · decide

/-- C4 witness: the abort decomposition applied to the concrete failing
restart plan. -/
theorem action_failure_aborts_witness :
    (∃ rest, [Action.stop, Action.start] = [Action.stop] ++ Action.start :: rest ∧
      (∀ x ∈ [Action.stop], failStartExec x = none) ∧
      failStartExec Action.start = some "start failed") ∧
    runModule restartSpec failWorld =
      { changed := true, warnings := [],
        error := some (.actionFailed .start "start failed"),
        effects := [.statusQuery, .exec .stop, .exec .start],
        plan := [.stop, .start] } ∧
    (runModule { restartSpec with state := some .started } stoppedWorld).plan =
      [Action.start] ∧
    (runModule { restartSpec with state := some .started } stoppedWorld).changed =
      true :=
  action_failure_aborts [Action.stop, Action.start] failStartExec [Action.stop]
    .start "start failed" rfl

theorem effSpec_pattern (spec : ServiceSpec) (caps : Capabilities) :
    (effSpec spec caps).pattern =
      if caps.supportsStatusQuery then none else spec.pattern := rfl

theorem effSpec_drop_pattern (spec : ServiceSpec) (caps : Capabilities)
    (hcap : caps.supportsStatusQuery = true) :
    effSpec { spec with pattern := none } caps = effSpec spec caps := by
  cases spec
  simp [effSpec, hcap]

theorem stage_drop_pattern (spec : ServiceSpec) (w : World) (b : BackendDescriptor)
    (hcap : b.caps.supportsStatusQuery = true) :
    (stage { spec with pattern := none } w b).status = (stage spec w b).status ∧
    (stage { spec with pattern := none } w b).scanned = (stage spec w b).scanned ∧
    (stage { spec with pattern := none } w b).plan = (stage spec w b).plan := by
  have he := effSpec_drop_pattern spec b.caps hcap
  unfold stage
  rw [he]
  exact ⟨rfl, rfl, rfl⟩

theorem reconcile_snd (spec : ServiceSpec) (status : ServiceStatus)
    (b : BackendDescriptor) :
    (reconcile spec status b).2 = [] ∨
      (reconcile spec status b).2 = [Warning.enableUnsupported] := by
  unfold reconcile
  split
  · exact Or.inr rfl
  · exact Or.inl rfl

theorem gateWarnings_pattern_count (spec : ServiceSpec) (caps : Capabilities)
    (hpat : spec.pattern.isSome = true) (hcap : caps.supportsStatusQuery = true) :
    (gateWarnings spec caps).count Warning.patternIgnored = 1 := by
  have hz : ∀ (c : Prop) [Decidable c] (wz : Warning), wz ≠ Warning.patternIgnored →
      (if c then [wz] else []).count Warning.patternIgnored = 0 := by
    intro c hc wz hne
    rw [List.count_eq_zero]
    split
    · intro hmem
      exact hne (List.mem_singleton.mp hmem).symm
    · simp
  unfold gateWarnings
  rw [List.count_append, List.count_append, List.count_append]
  rw [hz _ Warning.sleepIgnored (by decide),
      hz _ Warning.runlevelIgnored (by decide),
      hz _ Warning.argumentsIgnored (by decide)]
  rw [if_pos ⟨hpat, hcap⟩]
  decide

/-- C7: a spec with pattern supplied against a backend whose
supports-status-query capability is true never invokes process-list
scanning, emits exactly one warning noting the ignored pattern option, and
the dropped option never causes a failure — the outcome (error, changed,
plan) is the same as if pattern had not been supplied. -/
theorem pattern_dropped_on_reliable_status (spec : ServiceSpec) (w : World)
    (b : BackendDescriptor)
    (hval : ¬(spec.state = none ∧ spec.enabled = none))
    (hres : resolve spec.use w.detectedManager w.registry = .ok b)
    (hpat : spec.pattern.isSome = true)
    (hcap : b.caps.supportsStatusQuery = true) :
    Effect.procScan ∉ (runModule spec w).effects ∧
    (runModule spec w).warnings.count Warning.patternIgnored = 1 ∧
    (runModule spec w).error = (runModule { spec with pattern := none } w).error ∧
    (runModule spec w).changed = (runModule { spec with pattern := none } w).changed ∧
    (runModule spec w).plan = (runModule { spec with pattern := none } w).plan := by
  have hpn : (effSpec spec b.caps).pattern = none := by
    rw [effSpec_pattern, if_pos hcap]
  have hscanned : (stage spec w b).scanned = false := by
    show (resolve_status w.native w.nativeEnabled (effSpec spec b.caps).pattern
      w.procs).2 = false
    rw [hpn]
    exact resolve_status_none_no_scan w.native w.nativeEnabled w.procs
  have hsd := stage_drop_pattern spec w b hcap
  refine ⟨?_, ?_, ?_, ?_, ?_⟩
  · rw [runModule_ok_eq spec w b hval hres, afterBackend_effects, hscanned]
    rw [if_neg (by simp)]
    simp only [List.nil_append]
    intro hmem
    rcases List.mem_cons.mp hmem with hc | hc
    · exact absurd hc (by simp)
    · rcases List.mem_append.mp hc with h2 | h2
      · simp at h2
      · revert h2
        split <;> simp
  · rw [runModule_ok_eq spec w b hval hres, afterBackend_warnings]
    show (gateWarnings spec b.caps ++
      (reconcile (effSpec spec b.caps) (stage spec w b).status b).2).count
        Warning.patternIgnored = 1
    rw [List.count_append, gateWarnings_pattern_count spec b.caps hpat hcap]
    rcases reconcile_snd (effSpec spec b.caps) (stage spec w b).status b with
      hr | hr <;> rw [hr] <;> decide
  · rw [runModule_ok_eq spec w b hval hres,
      runModule_ok_eq { spec with pattern := none } w b hval hres,
      afterBackend_error, afterBackend_error, hsd.2.2]
  · rw [runModule_ok_eq spec w b hval hres,
      runModule_ok_eq { spec with pattern := none } w b hval hres,
      afterBackend_changed, afterBackend_changed, hsd.2.2]
  · rw [runModule_ok_eq spec w b hval hres,
      runModule_ok_eq { spec with pattern := none } w b hval hres,
      afterBackend_plan, afterBackend_plan, hsd.2.2]

/-- C7 witness: pattern supplied while the systemd backend is forced — no
scan, one warning, unchanged outcome. -/
theorem pattern_dropped_on_reliable_status_witness :
    Effect.procScan ∉ (runModule patternSpec sysdWorld).effects ∧
    (runModule patternSpec sysdWorld).warnings.count Warning.patternIgnored = 1 ∧
    (runModule patternSpec sysdWorld).error =
      (runModule { patternSpec with pattern := none } sysdWorld).error ∧
    (runModule patternSpec sysdWorld).changed =
      (runModule { patternSpec with pattern := none } sysdWorld).changed ∧
    (runModule patternSpec sysdWorld).plan =
      (runModule { patternSpec with pattern := none } sysdWorld).plan :=
  pattern_dropped_on_reliable_status patternSpec sysdWorld sysdBackend
    (by decide) rfl rfl rfl

theorem getParam_cons_pos (k v : String) (rest : List (String × String)) :
    getParam k ((k, v) :: rest) = some v := by
  unfold getParam
  rw [List.find?_cons_of_pos]
  · rfl
  · simp

theorem getParam_cons_neg (k k0 v0 : String) (rest : List (String × String))
    (h : k0 ≠ k) : getParam k ((k0, v0) :: rest) = getParam k rest := by
  unfold getParam
  rw [List.find?_cons_of_neg]
  simp [h]

theorem getParam_none_of_all (k : String) (rest : List (String × String))
    (h : ∀ p ∈ rest, ¬p.1 = k) : getParam k rest = none := by
  unfold getParam
  rw [List.find?_eq_none.mpr]
  · rfl
  · intro x hx
    simpa using h x hx

/-- C10: the extra-arguments option accepts the alias args — supplying the
same value under the key args instead of arguments builds the identical
ServiceSpec and hence yields the identical module outcome (same plan,
changed flag, warnings and errors). -/
theorem args_alias_equivalent (v : String) (rest : List (String × String))
    (w : World)
    (h : ∀ p ∈ rest, p.1 ≠ "arguments" ∧ p.1 ≠ "args") :
    buildSpec (("arguments", v) :: rest) = buildSpec (("args", v) :: rest) ∧
    runModule (buildSpec (("arguments", v) :: rest)) w =
      runModule (buildSpec (("args", v) :: rest)) w := by
  have hothers : ∀ k : String, k ≠ "arguments" → k ≠ "args" →
      getParam k (("arguments", v) :: rest) = getParam k (("args", v) :: rest) := by
    intro k h1 h2
    rw [getParam_cons_neg k "arguments" v rest (fun hc => h1 hc.symm),
        getParam_cons_neg k "args" v rest (fun hc => h2 hc.symm)]
  have hargl : getParam "arguments" (("arguments", v) :: rest) = some v :=
    getParam_cons_pos "arguments" v rest
  have hargr : getParam "arguments" (("args", v) :: rest) = none := by
    rw [getParam_cons_neg "arguments" "args" v rest (by decide)]
    exact getParam_none_of_all "arguments" rest (fun p hp => (h p hp).1)
  have hargsr : getParam "args" (("args", v) :: rest) = some v :=
    getParam_cons_pos "args" v rest
  have hb : buildSpec (("arguments", v) :: rest) = buildSpec (("args", v) :: rest) := by
    unfold buildSpec
    rw [hothers "name" (by decide) (by decide),
        hothers "state" (by decide) (by decide),
        hothers "enabled" (by decide) (by decide),
        hothers "sleep" (by decide) (by decide),
        hothers "pattern" (by decide) (by decide),
        hothers "runlevel" (by decide) (by decide),
        hothers "use" (by decide) (by decide),
        hargl, hargr, hargsr]
  exact ⟨hb, by rw [hb]⟩

/-- C10 witness: restarting the network service with the extra argument
eth0 under either key yields the same spec and outcome. -/
theorem args_alias_equivalent_witness :
    buildSpec [("arguments", "eth0"), ("name", "network"), ("state", "restarted")] =
      buildSpec [("args", "eth0"), ("name", "network"), ("state", "restarted")] ∧
    runModule (buildSpec [("arguments", "eth0"), ("name", "network"),
        ("state", "restarted")]) baseWorld =
      runModule (buildSpec [("args", "eth0"), ("name", "network"),
        ("state", "restarted")]) baseWorld :=
  args_alias_equivalent "eth0" [("name", "network"), ("state", "restarted")]
    baseWorld (by decide)

end Service
